import Mathlib

/-!
# Verification of the nextbudget transaction ledger engine

Shallow embedding of the transaction ledger core of the `nextbudget-be`
repository (files `src/transaction/models.rs` and `src/transaction/service.rs`).

Modelling choices:
* `rust_decimal::Decimal` amounts and balances are modelled as `Int`
  (e.g. cents): the service only adds, negates and compares amounts, all of
  which are exact on `Decimal`, so unbounded integers are a faithful
  abstraction of the decimal-exact arithmetic.
* UUIDs are modelled as `Nat`.
* The Postgres store is modelled as an explicit `DbState` record of lists of
  rows.  Each service operation runs inside one SQL transaction and rolls
  back wholesale on error, so the embedding applies mutations only on the
  success path and returns `Except AppError` — an error result leaves the
  input state untouched, exactly like a rollback.
* Store-level failures (`AppError::InternalError` from an unreachable
  database) abort with no state change and are not modelled.
* Timestamps `created_at`/`updated_at` are server-assigned audit data never
  read by the ledger logic and are omitted; the logical `transaction_date`
  is kept (as a `Nat`).
-/

namespace NextBudget

/-- `TransactionType` from `transaction/models.rs` (`Expense` is the
`#[default]` variant). -/
inductive TransactionType where
  | Expense
  | Income
  | Transfer
deriving DecidableEq, Repr

/-- `TransactionType::as_str` from `transaction/models.rs`. -/
def TransactionType.as_str : TransactionType → String
  | .Expense => "expense"
  | .Income => "income"
  | .Transfer => "transfer"

/-- `TransactionType::parse` from `transaction/models.rs`. -/
def TransactionType.parse (s : String) : Option TransactionType :=
  if s = "expense" then some .Expense
  else if s = "income" then some .Income
  else if s = "transfer" then some .Transfer
  else none

/-- The `accounts` table row: `id`, `owner_id` and the mutable `balance`
(columns used by the ledger engine). -/
structure Account where
  id : Nat
  owner_id : Nat
  balance : Int
deriving DecidableEq, Repr

/-- The `categories` table row (columns used by the ledger engine). -/
structure Category where
  id : Nat
  budget_id : Nat
deriving DecidableEq, Repr

/-- The `budgets` table row (columns used by the ledger engine). -/
structure Budget where
  id : Nat
  owner_id : Nat
deriving DecidableEq, Repr

/-- The persisted `Transaction` row from `transaction/models.rs`
(`transaction_type` is stored as a string, exactly as in the database). -/
structure Transaction where
  id : Nat
  category_id : Nat
  account_id : Option Nat
  destination_account_id : Option Nat
  amount : Int
  transaction_date : Nat
  description : Option String
  transaction_type : String
deriving DecidableEq, Repr

/-- `Transaction::get_type` from `transaction/models.rs`:
`TransactionType::parse(..).unwrap_or_default()`, the default being
`Expense`. -/
def Transaction.get_type (t : Transaction) : TransactionType :=
  (TransactionType.parse t.transaction_type).getD TransactionType.Expense

/-- `CreateTransactionDto` from `transaction/models.rs`. -/
structure CreateTransactionDto where
  category_id : Nat
  account_id : Option Nat
  destination_account_id : Option Nat
  amount : Int
  transaction_date : Nat
  description : Option String
  transaction_type : TransactionType
deriving DecidableEq, Repr

/-- `CreateTransactionDto::validate_transfer` from `transaction/models.rs`. -/
def CreateTransactionDto.validate_transfer (dto : CreateTransactionDto) :
    Except String Unit :=
  if dto.transaction_type ≠ TransactionType.Transfer ∧
      dto.destination_account_id.isSome then
    .error "destination_account_id is only allowed for transfer transactions"
  else if dto.transaction_type = TransactionType.Transfer ∧
      dto.account_id.isSome ∧ dto.account_id = dto.destination_account_id then
    .error "source and destination accounts must be different"
  else
    .ok ()

/-- `UpdateTransactionDto` from `transaction/models.rs`: PATCH semantics, the
two account fields are `Option<Option<Uuid>>` (omitted / explicit null /
explicit id). -/
structure UpdateTransactionDto where
  category_id : Option Nat
  account_id : Option (Option Nat)
  destination_account_id : Option (Option Nat)
  amount : Option Int
  transaction_date : Option Nat
  description : Option String
  transaction_type : Option TransactionType
deriving DecidableEq, Repr

/-- `UpdateTransactionDto::validate_transfer` from `transaction/models.rs`:
validates the combination of the *final* resolved type and account fields. -/
def UpdateTransactionDto.validate_transfer (_dto : UpdateTransactionDto)
    (final_type : TransactionType) (final_account_id : Option Nat)
    (final_destination_id : Option Nat) : Except String Unit :=
  if final_type ≠ TransactionType.Transfer ∧ final_destination_id.isSome then
    .error "destination_account_id is only allowed for transfer transactions"
  else if final_type = TransactionType.Transfer ∧
      final_account_id.isSome ∧ final_account_id = final_destination_id then
    .error "source and destination accounts must be different"
  else
    .ok ()

/-- `AppError` from `errors.rs` (the variants produced by the transaction
service). -/
inductive AppError where
  | ValidationError (msg : String)
  | NotFound (msg : String)
  | InternalError (msg : String)
deriving DecidableEq, Repr

/-- `BalanceOperation` from `transaction/service.rs`. -/
inductive BalanceOperation where
  | Apply
  | Reverse
deriving DecidableEq, Repr

/-- The relational store visible to the ledger engine: the four tables plus a
counter supplying fresh transaction primary keys. -/
structure DbState where
  accounts : List Account
  categories : List Category
  budgets : List Budget
  transactions : List Transaction
  next_id : Nat
deriving DecidableEq, Repr

/-- The ownership check `SELECT EXISTS(SELECT 1 FROM categories c JOIN
budgets b ON c.budget_id = b.id WHERE c.id = $1 AND b.owner_id = $2)` used by
the service. -/
def categoryOwnedBy (s : DbState) (category_id user_id : Nat) : Bool :=
  s.categories.any fun c =>
    c.id == category_id &&
      s.budgets.any fun b => b.id == c.budget_id && b.owner_id == user_id

/-- The ownership check `SELECT EXISTS(SELECT 1 FROM accounts WHERE id = $1
AND owner_id = $2)` used by the service. -/
def accountOwnedBy (s : DbState) (account_id user_id : Nat) : Bool :=
  s.accounts.any fun a => a.id == account_id && a.owner_id == user_id

/-- `TransactionService::account_exists`: `SELECT EXISTS(SELECT 1 FROM
accounts WHERE id = $1 FOR UPDATE)`. -/
def account_exists (s : DbState) (account_id : Nat) : Bool :=
  s.accounts.any fun a => a.id == account_id

/-- The `SELECT ... FROM transactions t JOIN categories c ... JOIN budgets b
... WHERE t.id = $1 AND b.owner_id = $2 FOR UPDATE OF t` fetch used by
update/delete: the record, scoped to the acting user via the
category→budget→owner chain. -/
def findTx (s : DbState) (user_id transaction_id : Nat) : Option Transaction :=
  s.transactions.find? fun t =>
    t.id == transaction_id && categoryOwnedBy s t.category_id user_id

/-- `TransactionService::update_single_account_balance`: the SQL
`UPDATE accounts SET balance = balance + $1 WHERE id = $2`, skipped when the
adjustment is zero.  An id matching no row mutates nothing (and is not an
error), exactly like the SQL `UPDATE`. -/
def update_single_account_balance (s : DbState) (account_id : Nat)
    (effect : Int) (operation : BalanceOperation) : DbState :=
  let adjustment : Int :=
    match operation with
    | .Apply => effect
    | .Reverse => -effect
  if adjustment ≠ 0 then
    { s with
      accounts := s.accounts.map fun a =>
        if a.id = account_id then { a with balance := a.balance + adjustment }
        else a }
  else s

/-- `TransactionService::apply_transaction_balance_effects` from
`transaction/service.rs`. -/
def apply_transaction_balance_effects (s : DbState)
    (source_account_id destination_account_id : Option Nat) (amount : Int)
    (transaction_type : TransactionType) (operation : BalanceOperation) :
    DbState :=
  match transaction_type with
  | .Expense =>
    match source_account_id with
    | some account_id =>
      update_single_account_balance s account_id (-amount) operation
    | none => s
  | .Income =>
    match source_account_id with
    | some account_id =>
      update_single_account_balance s account_id amount operation
    | none => s
  | .Transfer =>
    let s1 :=
      match source_account_id with
      | some src => update_single_account_balance s src (-amount) operation
      | none => s
    match destination_account_id with
    | some dst => update_single_account_balance s1 dst amount operation
    | none => s1

/-- `TransactionService::apply_transaction_balance_effects_with_existence_check`
from `transaction/service.rs`: like the plain variant, but each side's
adjustment is only issued when the account row still exists. -/
def apply_transaction_balance_effects_with_existence_check (s : DbState)
    (source_account_id destination_account_id : Option Nat) (amount : Int)
    (transaction_type : TransactionType) (operation : BalanceOperation) :
    DbState :=
  match transaction_type with
  | .Expense =>
    match source_account_id with
    | some account_id =>
      if account_exists s account_id then
        update_single_account_balance s account_id (-amount) operation
      else s
    | none => s
  | .Income =>
    match source_account_id with
    | some account_id =>
      if account_exists s account_id then
        update_single_account_balance s account_id amount operation
      else s
    | none => s
  | .Transfer =>
    let s1 :=
      match source_account_id with
      | some src =>
        if account_exists s src then
          update_single_account_balance s src (-amount) operation
        else s
      | none => s
    match destination_account_id with
    | some dst =>
      if account_exists s1 dst then
        update_single_account_balance s1 dst amount operation
      else s1
    | none => s1

/-- `TransactionService::handle_balance_update_for_modification_with_destination`:
reverse all old effects (with existence checks), then apply all new
effects. -/
def handle_balance_update_for_modification_with_destination (s : DbState)
    (old : Transaction) (new_account_id new_destination_account_id : Option Nat)
    (new_amount : Int) (new_type : TransactionType) : DbState :=
  let s1 := apply_transaction_balance_effects_with_existence_check s
    old.account_id old.destination_account_id old.amount old.get_type
    BalanceOperation.Reverse
  apply_transaction_balance_effects s1 new_account_id
    new_destination_account_id new_amount new_type BalanceOperation.Apply

/-- `TransactionService::create_transaction` from `transaction/service.rs`:
validate the transfer combination, check category and account ownership,
insert the row, apply the balance effects — all in one atomic unit. -/
def create_transaction (s : DbState) (user_id : Nat)
    (dto : CreateTransactionDto) : Except AppError (Transaction × DbState) :=
  match dto.validate_transfer with
  | .error e => .error (.ValidationError e)
  | .ok () =>
    if !categoryOwnedBy s dto.category_id user_id then
      .error (.NotFound "Category not found or access denied")
    else
      let srcOk :=
        match dto.account_id with
        | some account_id => accountOwnedBy s account_id user_id
        | none => true
      if !srcOk then
        .error (.NotFound "Source account not found or access denied")
      else
        let dstOk :=
          match dto.destination_account_id with
          | some dest_account_id => accountOwnedBy s dest_account_id user_id
          | none => true
        if !dstOk then
          .error (.NotFound "Destination account not found or access denied")
        else
          let t : Transaction :=
            { id := s.next_id
              category_id := dto.category_id
              account_id := dto.account_id
              destination_account_id := dto.destination_account_id
              amount := dto.amount
              transaction_date := dto.transaction_date
              description := dto.description
              transaction_type := dto.transaction_type.as_str }
          let s1 := { s with
            transactions := t :: s.transactions
            next_id := s.next_id + 1 }
          let s2 := apply_transaction_balance_effects s1 dto.account_id
            dto.destination_account_id dto.amount dto.transaction_type
            BalanceOperation.Apply
          .ok (t, s2)

/-- `TransactionService::delete_transaction` from `transaction/service.rs`:
fetch and lock the row (scoped to the owner), reverse its effects with
existence checks, delete the row — all in one atomic unit. -/
def delete_transaction (s : DbState) (user_id transaction_id : Nat) :
    Except AppError DbState :=
  match findTx s user_id transaction_id with
  | none => .error (.NotFound "Transaction not found")
  | some t =>
    let s1 := apply_transaction_balance_effects_with_existence_check s
      t.account_id t.destination_account_id t.amount t.get_type
      BalanceOperation.Reverse
    .ok { s1 with
      transactions := s1.transactions.filter fun t2 =>
        !(t2.id == transaction_id) }

/-- `TransactionService::update_transaction` from `transaction/service.rs`:
fetch and lock, resolve every final field (PATCH semantics), validate the
new category/accounts as needed, re-validate the transfer combination on the
final state, reverse-old-then-apply-new, write the row. -/
def update_transaction (s : DbState) (user_id transaction_id : Nat)
    (dto : UpdateTransactionDto) : Except AppError (Transaction × DbState) :=
  match findTx s user_id transaction_id with
  | none => .error (.NotFound "Transaction not found")
  | some old =>
    let new_category_id := dto.category_id.getD old.category_id
    if dto.category_id.isSome &&
        !categoryOwnedBy s new_category_id user_id then
      .error (.NotFound "New category not found or access denied")
    else
      let srcRes : Except AppError (Option Nat) :=
        match dto.account_id with
        | some (some id) =>
          if accountOwnedBy s id user_id then .ok (some id)
          else .error (.NotFound "New source account not found or access denied")
        | some none => .ok none
        | none => .ok old.account_id
      match srcRes with
      | .error e => .error e
      | .ok new_account_id =>
        let dstRes : Except AppError (Option Nat) :=
          match dto.destination_account_id with
          | some (some id) =>
            if accountOwnedBy s id user_id then .ok (some id)
            else .error
              (.NotFound "New destination account not found or access denied")
          | some none => .ok none
          | none => .ok old.destination_account_id
        match dstRes with
        | .error e => .error e
        | .ok new_destination_account_id =>
          let new_amount := dto.amount.getD old.amount
          let new_type := dto.transaction_type.getD old.get_type
          let new_date := dto.transaction_date.getD old.transaction_date
          match dto.validate_transfer new_type new_account_id
              new_destination_account_id with
          | .error e => .error (.ValidationError e)
          | .ok () =>
            let new_description := dto.description.or old.description
            let s1 := handle_balance_update_for_modification_with_destination
              s old new_account_id new_destination_account_id new_amount
              new_type
            let updated : Transaction :=
              { old with
                category_id := new_category_id
                account_id := new_account_id
                destination_account_id := new_destination_account_id
                amount := new_amount
                transaction_date := new_date
                description := new_description
                transaction_type := new_type.as_str }
            .ok (updated,
              { s1 with
                transactions := s1.transactions.map fun t2 =>
                  if t2.id == transaction_id then
                    { t2 with
                      category_id := new_category_id
                      account_id := new_account_id
                      destination_account_id := new_destination_account_id
                      amount := new_amount
                      transaction_date := new_date
                      description := new_description
                      transaction_type := new_type.as_str }
                  else t2 })

/-- Commit-or-rollback wrapper for Create: an error result leaves the store
unchanged (the SQL transaction rolls back). -/
def runCreate (s : DbState) (user_id : Nat) (dto : CreateTransactionDto) :
    DbState :=
  match create_transaction s user_id dto with
  | .ok (_, s2) => s2
  | .error _ => s

/-- Commit-or-rollback wrapper for Update. -/
def runUpdate (s : DbState) (user_id transaction_id : Nat)
    (dto : UpdateTransactionDto) : DbState :=
  match update_transaction s user_id transaction_id dto with
  | .ok (_, s2) => s2
  | .error _ => s

/-- Commit-or-rollback wrapper for Delete. -/
def runDelete (s : DbState) (user_id transaction_id : Nat) : DbState :=
  match delete_transaction s user_id transaction_id with
  | .ok s2 => s2
  | .error _ => s

/-- Sign of a `BalanceOperation`: `Apply` adds the effect, `Reverse` adds its
negation. -/
def opSign : BalanceOperation → Int
  | .Apply => 1
  | .Reverse => -1

/-- Modelled from the spec (§4.1 Balance Effect Calculator): the signed effect
of a transaction with the given kind, amount and account references on the
account `aid`.  Expense: −amount on the source; Income: +amount on the
source; Transfer: −amount on the source and +amount on the destination;
absent references contribute nothing. -/
def balanceEffect (src dst : Option Nat) (amount : Int)
    (tt : TransactionType) (aid : Nat) : Int :=
  match tt with
  | .Expense => if src = some aid then -amount else 0
  | .Income => if src = some aid then amount else 0
  | .Transfer =>
    (if src = some aid then -amount else 0) +
      (if dst = some aid then amount else 0)

/-- Add `δ a.id` to the balance of every account in the list. -/
def applyDeltaAll (l : List Account) (δ : Nat → Int) : List Account :=
  l.map fun a => { a with balance := a.balance + δ a.id }

theorem applyDeltaAll_zero (l : List Account) :
    applyDeltaAll l (fun _ => 0) = l := by
  simp [applyDeltaAll]

theorem applyDeltaAll_congr {l : List Account} {δ1 δ2 : Nat → Int}
    (h : ∀ a ∈ l, δ1 a.id = δ2 a.id) : applyDeltaAll l δ1 = applyDeltaAll l δ2 := by
  unfold applyDeltaAll
  exact List.map_congr_left fun a ha => by rw [h a ha]

theorem applyDeltaAll_applyDeltaAll (l : List Account) (δ1 δ2 : Nat → Int) :
    applyDeltaAll (applyDeltaAll l δ1) δ2 =
      applyDeltaAll l (fun i => δ1 i + δ2 i) := by
  unfold applyDeltaAll
  rw [List.map_map]
  exact List.map_congr_left fun a _ => by simp [add_assoc]

theorem account_exists_applyDeltaAll (s : DbState) (l : List Account)
    (δ : Nat → Int) (aid : Nat) :
    account_exists { s with accounts := applyDeltaAll l δ } aid =
      account_exists { s with accounts := l } aid := by
  simp only [account_exists, applyDeltaAll, List.any_map]
  rfl

theorem update_single_account_balance_eq (s : DbState) (aid : Nat)
    (eff : Int) (op : BalanceOperation) :
    update_single_account_balance s aid eff op =
      { s with accounts :=
          applyDeltaAll s.accounts fun i => if i = aid then opSign op * eff else 0 } := by
  unfold update_single_account_balance
  cases op <;> by_cases h : eff = 0 <;>
    simp [h, opSign, applyDeltaAll] <;>
    intro a _ <;> by_cases ha : a.id = aid <;> simp [ha]

theorem applyDeltaAll_eq_self {l : List Account} {δ : Nat → Int}
    (h : ∀ a ∈ l, δ a.id = 0) : applyDeltaAll l δ = l := by
  calc applyDeltaAll l δ = applyDeltaAll l (fun _ => 0) := applyDeltaAll_congr h
    _ = l := applyDeltaAll_zero l

theorem state_accounts_congr (s : DbState) {X Y : List Account} (h : X = Y) :
    ({ s with accounts := X } : DbState) = { s with accounts := Y } := by
  rw [h]

theorem account_exists_false {s : DbState} {aid : Nat}
    (h : account_exists s aid = false) : ∀ a ∈ s.accounts, a.id ≠ aid := by
  intro a ha heq
  have hm : ((fun a : Account => a.id == aid) a) = true := by simp [heq]
  have : s.accounts.any (fun a => a.id == aid) = true :=
    List.any_eq_true.mpr ⟨a, ha, hm⟩
  rw [account_exists] at h
  rw [h] at this
  exact Bool.false_ne_true this

/-- One optional side of a balance adjustment (the `if let Some(id)` pattern
in `apply_transaction_balance_effects`). -/
def optAdjust (s : DbState) (aid? : Option Nat) (x : Int)
    (op : BalanceOperation) : DbState :=
  match aid? with
  | some aid => update_single_account_balance s aid x op
  | none => s

/-- One optional side of a balance adjustment guarded by the existence check
(the pattern in `apply_transaction_balance_effects_with_existence_check`). -/
def optAdjustChecked (s : DbState) (aid? : Option Nat) (x : Int)
    (op : BalanceOperation) : DbState :=
  match aid? with
  | some aid =>
    if account_exists s aid then update_single_account_balance s aid x op
    else s
  | none => s

theorem optAdjust_eq (s : DbState) (aid? : Option Nat) (x : Int)
    (op : BalanceOperation) :
    optAdjust s aid? x op =
      { s with
        accounts := applyDeltaAll s.accounts
            (fun i => opSign op * (if aid? = some i then x else 0)) } := by
  cases aid? with
  | none =>
    exact (state_accounts_congr s
      (applyDeltaAll_eq_self fun a _ => by simp)).symm
  | some j =>
    show update_single_account_balance s j x op = _
    rw [update_single_account_balance_eq]
    refine state_accounts_congr s (applyDeltaAll_congr fun a _ => ?_)
    by_cases h : a.id = j
    · simp [h]
    · have h2 : ¬ j = a.id := fun hh => h hh.symm
      simp [h, h2]

theorem optAdjustChecked_eq (s : DbState) (aid? : Option Nat) (x : Int)
    (op : BalanceOperation) :
    optAdjustChecked s aid? x op =
      { s with
        accounts := applyDeltaAll s.accounts
            (fun i => opSign op * (if aid? = some i then x else 0)) } := by
  cases aid? with
  | none =>
    exact (state_accounts_congr s
      (applyDeltaAll_eq_self fun a _ => by simp)).symm
  | some j =>
    show (if account_exists s j then
        update_single_account_balance s j x op else s) = _
    by_cases hj : account_exists s j = true
    · rw [if_pos hj, update_single_account_balance_eq]
      refine state_accounts_congr s (applyDeltaAll_congr fun a _ => ?_)
      by_cases h : a.id = j
      · simp [h]
      · have h2 : ¬ j = a.id := fun hh => h hh.symm
        simp [h, h2]
    · rw [Bool.not_eq_true] at hj
      rw [if_neg (by simp [hj])]
      refine (state_accounts_congr s
        (applyDeltaAll_eq_self fun a ha => ?_)).symm
      have h2 : ¬ j = a.id := fun hh => account_exists_false hj a ha hh.symm
      simp [h2]

theorem apply_transaction_balance_effects_eq (s : DbState)
    (src dst : Option Nat) (amt : Int) (tt : TransactionType)
    (op : BalanceOperation) :
    apply_transaction_balance_effects s src dst amt tt op =
      { s with
        accounts := applyDeltaAll s.accounts
            (fun i => opSign op * balanceEffect src dst amt tt i) } := by
  cases tt with
  | Expense => exact optAdjust_eq s src (-amt) op
  | Income => exact optAdjust_eq s src amt op
  | Transfer =>
    calc apply_transaction_balance_effects s src dst amt .Transfer op
        = optAdjust (optAdjust s src (-amt) op) dst amt op := by
          cases src <;> cases dst <;> rfl
      _ = optAdjust
            { s with
              accounts := applyDeltaAll s.accounts
                (fun i => opSign op * (if src = some i then -amt else 0)) }
            dst amt op :=
            congrArg (fun st => optAdjust st dst amt op)
              (optAdjust_eq s src (-amt) op)
      _ = { s with
            accounts := applyDeltaAll
              (applyDeltaAll s.accounts
                (fun i => opSign op * (if src = some i then -amt else 0)))
              (fun i => opSign op * (if dst = some i then amt else 0)) } :=
          optAdjust_eq _ dst amt op
      _ = { s with
            accounts := applyDeltaAll s.accounts
              (fun i => opSign op * balanceEffect src dst amt .Transfer i) } := by
          rw [applyDeltaAll_applyDeltaAll]
          refine state_accounts_congr s (applyDeltaAll_congr fun a _ => ?_)
          simp [balanceEffect, mul_add]

theorem apply_transaction_balance_effects_with_existence_check_eq
    (s : DbState) (src dst : Option Nat) (amt : Int) (tt : TransactionType)
    (op : BalanceOperation) :
    apply_transaction_balance_effects_with_existence_check s src dst amt tt
        op =
      { s with
        accounts := applyDeltaAll s.accounts
            (fun i => opSign op * balanceEffect src dst amt tt i) } := by
  cases tt with
  | Expense => exact optAdjustChecked_eq s src (-amt) op
  | Income => exact optAdjustChecked_eq s src amt op
  | Transfer =>
    calc apply_transaction_balance_effects_with_existence_check s src dst
          amt .Transfer op
        = optAdjustChecked (optAdjustChecked s src (-amt) op) dst amt op := by
          cases src <;> cases dst <;> rfl
      _ = optAdjustChecked
            { s with
              accounts := applyDeltaAll s.accounts
                (fun i => opSign op * (if src = some i then -amt else 0)) }
            dst amt op :=
            congrArg (fun st => optAdjustChecked st dst amt op)
              (optAdjustChecked_eq s src (-amt) op)
      _ = { s with
            accounts := applyDeltaAll
              (applyDeltaAll s.accounts
                (fun i => opSign op * (if src = some i then -amt else 0)))
              (fun i => opSign op * (if dst = some i then amt else 0)) } :=
          optAdjustChecked_eq _ dst amt op
      _ = { s with
            accounts := applyDeltaAll s.accounts
              (fun i => opSign op * balanceEffect src dst amt .Transfer i) } := by
          rw [applyDeltaAll_applyDeltaAll]
          refine state_accounts_congr s (applyDeltaAll_congr fun a _ => ?_)
          simp [balanceEffect, mul_add]

/-- The signed effect of the persisted transaction `t` on account `aid`
(zero when `t` does not reference `aid`). -/
def effectOn (t : Transaction) (aid : Nat) : Int :=
  balanceEffect t.account_id t.destination_account_id t.amount t.get_type aid

/-- Sum of the signed effects of a list of persisted transactions on account
`aid`. -/
def txSum : List Transaction → Nat → Int
  | [], _ => 0
  | t :: ts, aid => effectOn t aid + txSum ts aid

/-- The balance-conservation invariant: every stored account balance equals
the sum of the signed effects of all currently-persisted transactions on it
(transactions not referencing the account contribute zero). -/
def Inv (s : DbState) : Prop :=
  ∀ a ∈ s.accounts, a.balance = txSum s.transactions a.id

/-- Store well-formedness: transaction primary keys are distinct and below
the fresh-key counter (what a relational primary key plus a sequence
guarantees). -/
def WF (s : DbState) : Prop :=
  (s.transactions.map (fun t => t.id)).Nodup ∧
    ∀ t ∈ s.transactions, t.id < s.next_id

instance (s : DbState) : Decidable (Inv s) := by
  unfold Inv; infer_instance

instance (s : DbState) : Decidable (WF s) := by
  unfold WF; infer_instance

theorem parse_as_str (tt : TransactionType) :
    TransactionType.parse tt.as_str = some tt := by
  cases tt <;> decide

/-- The ledger row inserted by a successful Create. -/
def mkTx (s : DbState) (dto : CreateTransactionDto) : Transaction :=
  { id := s.next_id
    category_id := dto.category_id
    account_id := dto.account_id
    destination_account_id := dto.destination_account_id
    amount := dto.amount
    transaction_date := dto.transaction_date
    description := dto.description
    transaction_type := dto.transaction_type.as_str }

theorem mkTx_get_type (s : DbState) (dto : CreateTransactionDto) :
    (mkTx s dto).get_type = dto.transaction_type := by
  simp [mkTx, Transaction.get_type, parse_as_str]

theorem findTx_some {s : DbState} {u tid : Nat} {t : Transaction}
    (h : findTx s u tid = some t) :
    t ∈ s.transactions ∧ t.id = tid ∧
      categoryOwnedBy s t.category_id u = true := by
  unfold findTx at h
  have hmem := List.mem_of_find?_eq_some h
  have hp := List.find?_some h
  rw [Bool.and_eq_true] at hp
  exact ⟨hmem, by simpa using hp.1, hp.2⟩

theorem create_transaction_ok {s : DbState} {u : Nat}
    {dto : CreateTransactionDto} {t : Transaction} {s2 : DbState}
    (h : create_transaction s u dto = .ok (t, s2)) :
    t = mkTx s dto ∧
      s2 = apply_transaction_balance_effects
        { s with
          transactions := mkTx s dto :: s.transactions
          next_id := s.next_id + 1 }
        dto.account_id dto.destination_account_id dto.amount
        dto.transaction_type BalanceOperation.Apply := by
  cases hv : dto.validate_transfer with
  | error e => simp [create_transaction, hv] at h
  | ok _ =>
    by_cases h1 : categoryOwnedBy s dto.category_id u
    · by_cases h2 : (match dto.account_id with
        | some a => accountOwnedBy s a u
        | none => true) = true
      · by_cases h3 : (match dto.destination_account_id with
          | some a => accountOwnedBy s a u
          | none => true) = true
        · simp [create_transaction, hv, h1, h2, h3, mkTx] at h
          exact ⟨h.1.symm, h.2.symm⟩
        · simp [create_transaction, hv, h1, h2, h3] at h
      · simp [create_transaction, hv, h1, h2] at h
    · simp [create_transaction, hv, h1] at h

theorem delete_transaction_ok {s : DbState} {u tid : Nat} {s2 : DbState}
    (h : delete_transaction s u tid = .ok s2) :
    ∃ t, findTx s u tid = some t ∧
      s2 = { apply_transaction_balance_effects_with_existence_check s
              t.account_id t.destination_account_id t.amount t.get_type
              BalanceOperation.Reverse with
             transactions :=
              (apply_transaction_balance_effects_with_existence_check s
                t.account_id t.destination_account_id t.amount t.get_type
                BalanceOperation.Reverse).transactions.filter
                  fun t2 => !(t2.id == tid) } := by
  cases hf : findTx s u tid with
  | none => simp [delete_transaction, hf] at h
  | some t =>
    refine ⟨t, rfl, ?_⟩
    simp [delete_transaction, hf] at h
    exact h.symm

/-- A generic Inv-preservation step: if the new accounts are the old ones
shifted by `δ` and the new transaction sums shifted by the same `δ`, the
invariant carries over. -/
theorem Inv_of_shift {s s2 : DbState} {δ : Nat → Int}
    (hacc : s2.accounts = applyDeltaAll s.accounts δ)
    (hsum : ∀ aid, txSum s2.transactions aid = txSum s.transactions aid + δ aid)
    (hInv : Inv s) : Inv s2 := by
  intro a2 ha2
  rw [hacc] at ha2
  unfold applyDeltaAll at ha2
  obtain ⟨a, ha, rfl⟩ := List.mem_map.mp ha2
  show a.balance + δ a.id = txSum s2.transactions a.id
  rw [hsum a.id, ← hInv a ha]

theorem filter_ne_id {rest : List Transaction} {tid : Nat}
    (h : ∀ t2 ∈ rest, t2.id ≠ tid) :
    rest.filter (fun t2 => !(t2.id == tid)) = rest := by
  induction rest with
  | nil => rfl
  | cons hd tl ih =>
    have hhd : (hd.id == tid) = false := by
      simp [h hd (List.mem_cons_self hd tl)]
    rw [List.filter_cons]
    simp only [hhd, Bool.not_false, if_true]
    rw [ih fun t2 ht2 => h t2 (List.mem_cons_of_mem hd ht2)]

theorem map_replace_id {rest : List Transaction} {tid : Nat}
    (g : Transaction → Transaction)
    (h : ∀ t2 ∈ rest, t2.id ≠ tid) :
    rest.map (fun t2 => if t2.id == tid then g t2 else t2) = rest := by
  induction rest with
  | nil => rfl
  | cons hd tl ih =>
    have hhd : (hd.id == tid) = false := by
      simp [h hd (List.mem_cons_self hd tl)]
    rw [List.map_cons]
    simp only [hhd, Bool.false_eq_true, if_false]
    rw [ih fun t2 ht2 => h t2 (List.mem_cons_of_mem hd ht2)]

theorem not_id_mem {tl : List Transaction} {x tid : Nat}
    (hx : x ∉ tl.map (fun t2 => t2.id)) (hxid : x = tid) :
    ∀ t2 ∈ tl, t2.id ≠ tid := by
  intro t2 ht2 he
  exact hx (by rw [hxid, ← he]; exact List.mem_map_of_mem _ ht2)

theorem txSum_filter_ne {ts : List Transaction} {t : Transaction} {tid : Nat}
    (ht : t ∈ ts) (hid : t.id = tid)
    (hnd : (ts.map (fun t2 => t2.id)).Nodup) (aid : Nat) :
    txSum (ts.filter fun t2 => !(t2.id == tid)) aid =
      txSum ts aid - effectOn t aid := by
  induction ts with
  | nil => cases ht
  | cons hd tl ih =>
    rw [List.map_cons, List.nodup_cons] at hnd
    rcases List.mem_cons.mp ht with rfl | htl
    · have hhid : (t.id == tid) = true := by simp [hid]
      rw [List.filter_cons]
      simp only [hhid, Bool.not_true, Bool.false_eq_true, if_false]
      rw [filter_ne_id (not_id_mem hnd.1 hid)]
      show txSum tl aid = effectOn t aid + txSum tl aid - effectOn t aid
      ring
    · have hhd : (hd.id == tid) = false := by
        have : hd.id ≠ tid :=
          fun he => hnd.1 (by rw [he, ← hid]; exact List.mem_map_of_mem _ htl)
        simp [this]
      rw [List.filter_cons]
      simp only [hhd, Bool.not_false, if_true]
      show effectOn hd aid + txSum (tl.filter fun t2 => !(t2.id == tid)) aid =
        effectOn hd aid + txSum tl aid - effectOn t aid
      rw [ih htl hnd.2]
      ring

theorem txSum_map_replace {ts : List Transaction} {t : Transaction} {tid : Nat}
    (g : Transaction → Transaction) (ht : t ∈ ts) (hid : t.id = tid)
    (hnd : (ts.map (fun t2 => t2.id)).Nodup) (aid : Nat) :
    txSum (ts.map fun t2 => if t2.id == tid then g t2 else t2) aid =
      txSum ts aid - effectOn t aid + effectOn (g t) aid := by
  induction ts with
  | nil => cases ht
  | cons hd tl ih =>
    rw [List.map_cons, List.nodup_cons] at hnd
    rcases List.mem_cons.mp ht with rfl | htl
    · have hhid : (t.id == tid) = true := by simp [hid]
      rw [List.map_cons]
      simp only [hhid, if_true]
      rw [map_replace_id g (not_id_mem hnd.1 hid)]
      show effectOn (g t) aid + txSum tl aid =
        effectOn t aid + txSum tl aid - effectOn t aid + effectOn (g t) aid
      ring
    · have hhd : (hd.id == tid) = false := by
        have : hd.id ≠ tid :=
          fun he => hnd.1 (by rw [he, ← hid]; exact List.mem_map_of_mem _ htl)
        simp [this]
      rw [List.map_cons]
      simp only [hhd, Bool.false_eq_true, if_false]
      show effectOn hd aid +
          txSum (tl.map fun t2 => if t2.id == tid then g t2 else t2) aid =
        effectOn hd aid + txSum tl aid - effectOn t aid + effectOn (g t) aid
      rw [ih htl hnd.2]
      ring

/-- Modelled from the spec (§4.4 Update, design note "three-way
optional-field update semantics"): resolve an account field of a PATCH —
omitted keeps the current value, explicit null clears it, an explicit id
sets it. -/
def resolveAccountField : Option (Option Nat) → Option Nat → Option Nat
  | some (some id), _ => some id
  | some none, _ => none
  | none, cur => cur

/-- The ledger row produced by a successful Update: every omitted field keeps
its current value. -/
def updatedTx (old : Transaction) (dto : UpdateTransactionDto) : Transaction :=
  { old with
    category_id := dto.category_id.getD old.category_id
    account_id := resolveAccountField dto.account_id old.account_id
    destination_account_id :=
      resolveAccountField dto.destination_account_id
        old.destination_account_id
    amount := dto.amount.getD old.amount
    transaction_date := dto.transaction_date.getD old.transaction_date
    description := dto.description.or old.description
    transaction_type := (dto.transaction_type.getD old.get_type).as_str }

/-- The store state after a successful Update of the row `old` (with id
`tid`): balances reverse-old-then-apply-new, and the row is rewritten in
place. -/
def updateFinalState (s : DbState) (old : Transaction) (tid : Nat)
    (dto : UpdateTransactionDto) : DbState :=
  let s1 := handle_balance_update_for_modification_with_destination s old
    (resolveAccountField dto.account_id old.account_id)
    (resolveAccountField dto.destination_account_id
      old.destination_account_id)
    (dto.amount.getD old.amount) (dto.transaction_type.getD old.get_type)
  { s1 with
    transactions := s1.transactions.map fun t2 =>
      if t2.id == tid then
        { t2 with
          category_id := dto.category_id.getD old.category_id
          account_id := resolveAccountField dto.account_id old.account_id
          destination_account_id :=
            resolveAccountField dto.destination_account_id
              old.destination_account_id
          amount := dto.amount.getD old.amount
          transaction_date := dto.transaction_date.getD old.transaction_date
          description := dto.description.or old.description
          transaction_type := (dto.transaction_type.getD old.get_type).as_str }
      else t2 }

theorem update_transaction_ok {s : DbState} {u tid : Nat}
    {dto : UpdateTransactionDto} {t' : Transaction} {s2 : DbState}
    (h : update_transaction s u tid dto = .ok (t', s2)) :
    ∃ old, findTx s u tid = some old ∧ t' = updatedTx old dto ∧
      s2 = updateFinalState s old tid dto := by
  unfold update_transaction at h
  cases hf : findTx s u tid with
  | none => rw [hf] at h; exact absurd h (by simp)
  | some old =>
    rw [hf] at h
    refine ⟨old, rfl, ?_⟩
    dsimp only at h
    split at h
    · exact absurd h (by simp)
    · split at h
      next e heq => exact absurd h (by simp)
      next na heq =>
        have hna : na = resolveAccountField dto.account_id old.account_id := by
          rcases hda : dto.account_id with _ | osrc
          · rw [hda] at heq
            simp at heq
            simp [resolveAccountField, heq]
          · rcases osrc with _ | id
            · rw [hda] at heq
              simp at heq
              simp [resolveAccountField, heq]
            · rw [hda] at heq
              by_cases hsa : accountOwnedBy s id u = true
              · simp [hsa] at heq
                simp [resolveAccountField, heq]
              · simp [hsa] at heq
        subst hna
        split at h
        next e heq2 => exact absurd h (by simp)
        next nd heq2 =>
          have hnd : nd = resolveAccountField dto.destination_account_id
              old.destination_account_id := by
            rcases hdd : dto.destination_account_id with _ | odst
            · rw [hdd] at heq2
              simp at heq2
              simp [resolveAccountField, heq2]
            · rcases odst with _ | id
              · rw [hdd] at heq2
                simp at heq2
                simp [resolveAccountField, heq2]
              · rw [hdd] at heq2
                by_cases hsd : accountOwnedBy s id u = true
                · simp [hsd] at heq2
                  simp [resolveAccountField, heq2]
                · simp [hsd] at heq2
          subst hnd
          split at h
          next e heq3 => exact absurd h (by simp)
          next heq3 =>
            rw [Except.ok.injEq, Prod.mk.injEq] at h
            refine ⟨h.1.symm, h.2.symm.trans ?_⟩
            rfl

theorem handle_balance_eq (s : DbState) (old : Transaction)
    (na nd : Option Nat) (namt : Int) (nt : TransactionType) :
    handle_balance_update_for_modification_with_destination s old na nd namt
        nt =
      { s with
        accounts := applyDeltaAll s.accounts
          (fun i => opSign BalanceOperation.Reverse * effectOn old i +
            opSign BalanceOperation.Apply * balanceEffect na nd namt nt i) } := by
  unfold handle_balance_update_for_modification_with_destination
  rw [apply_transaction_balance_effects_with_existence_check_eq,
    apply_transaction_balance_effects_eq]
  dsimp only
  rw [applyDeltaAll_applyDeltaAll]
  rfl

theorem ids_map_replace (ts : List Transaction) (tid : Nat)
    (g : Transaction → Transaction) (hg : ∀ t2, (g t2).id = t2.id) :
    ((ts.map fun t2 => if t2.id == tid then g t2 else t2).map
        (fun t => t.id)) = ts.map (fun t => t.id) := by
  rw [List.map_map]
  apply List.map_congr_left
  intro t2 _
  by_cases h : (t2.id == tid) = true <;> simp [Function.comp, h, hg]

theorem invWF_runCreate (s : DbState) (u : Nat) (dto : CreateTransactionDto)
    (hInv : Inv s) (hWF : WF s) :
    Inv (runCreate s u dto) ∧ WF (runCreate s u dto) := by
  unfold runCreate
  cases hc : create_transaction s u dto with
  | error e => exact ⟨hInv, hWF⟩
  | ok p =>
    obtain ⟨t, s2⟩ := p
    obtain ⟨-, rfl⟩ := create_transaction_ok hc
    rw [apply_transaction_balance_effects_eq]
    dsimp only
    constructor
    · refine Inv_of_shift (s := s)
        (δ := fun i => opSign BalanceOperation.Apply *
          balanceEffect dto.account_id dto.destination_account_id dto.amount
            dto.transaction_type i) rfl ?_ hInv
      intro aid
      show effectOn (mkTx s dto) aid + txSum s.transactions aid = _
      have he : effectOn (mkTx s dto) aid =
          balanceEffect dto.account_id dto.destination_account_id dto.amount
            dto.transaction_type aid := by
        unfold effectOn
        rw [mkTx_get_type]
        rfl
      rw [he]
      simp [opSign]
      ring
    · constructor
      · show ((mkTx s dto :: s.transactions).map (fun t2 => t2.id)).Nodup
        rw [List.map_cons, List.nodup_cons]
        refine ⟨?_, hWF.1⟩
        intro hmem
        obtain ⟨t2, ht2, he⟩ := List.mem_map.mp hmem
        have hb := hWF.2 t2 ht2
        rw [he] at hb
        exact absurd hb (lt_irrefl s.next_id)
      · intro t2 ht2
        show t2.id < s.next_id + 1
        rcases List.mem_cons.mp ht2 with rfl | h2
        · exact Nat.lt_succ_self s.next_id
        · exact Nat.lt_succ_of_lt (hWF.2 t2 h2)

theorem invWF_runDelete (s : DbState) (u tid : Nat)
    (hInv : Inv s) (hWF : WF s) :
    Inv (runDelete s u tid) ∧ WF (runDelete s u tid) := by
  unfold runDelete
  cases hc : delete_transaction s u tid with
  | error e => exact ⟨hInv, hWF⟩
  | ok s2 =>
    obtain ⟨t, hf, rfl⟩ := delete_transaction_ok hc
    obtain ⟨hmem, hid, -⟩ := findTx_some hf
    rw [apply_transaction_balance_effects_with_existence_check_eq]
    dsimp only
    constructor
    · refine Inv_of_shift (s := s)
        (δ := fun i => opSign BalanceOperation.Reverse * effectOn t i) rfl
        ?_ hInv
      intro aid
      show txSum (s.transactions.filter fun t2 => !(t2.id == tid)) aid = _
      rw [txSum_filter_ne hmem hid hWF.1]
      simp [opSign]
      ring
    · constructor
      · show ((s.transactions.filter fun t2 => !(t2.id == tid)).map
          (fun t2 => t2.id)).Nodup
        exact ((List.filter_sublist s.transactions).map
          (fun t2 => t2.id)).nodup hWF.1
      · intro t2 ht2
        exact hWF.2 t2 (List.mem_of_mem_filter ht2)

theorem invWF_runUpdate (s : DbState) (u tid : Nat)
    (dto : UpdateTransactionDto) (hInv : Inv s) (hWF : WF s) :
    Inv (runUpdate s u tid dto) ∧ WF (runUpdate s u tid dto) := by
  unfold runUpdate
  cases hc : update_transaction s u tid dto with
  | error e => exact ⟨hInv, hWF⟩
  | ok p =>
    obtain ⟨t', s2⟩ := p
    obtain ⟨old, hf, -, rfl⟩ := update_transaction_ok hc
    obtain ⟨hmem, hid, -⟩ := findTx_some hf
    unfold updateFinalState
    rw [handle_balance_eq]
    dsimp only
    constructor
    · refine Inv_of_shift (s := s)
        (δ := fun i => opSign BalanceOperation.Reverse * effectOn old i +
          opSign BalanceOperation.Apply *
            balanceEffect (resolveAccountField dto.account_id old.account_id)
              (resolveAccountField dto.destination_account_id
                old.destination_account_id)
              (dto.amount.getD old.amount)
              (dto.transaction_type.getD old.get_type) i) rfl ?_ hInv
      intro aid
      rw [txSum_map_replace
        (g := fun t2 =>
          { t2 with
            category_id := dto.category_id.getD old.category_id
            account_id := resolveAccountField dto.account_id old.account_id
            destination_account_id :=
              resolveAccountField dto.destination_account_id
                old.destination_account_id
            amount := dto.amount.getD old.amount
            transaction_date := dto.transaction_date.getD old.transaction_date
            description := dto.description.or old.description
            transaction_type :=
              (dto.transaction_type.getD old.get_type).as_str })
        hmem hid hWF.1]
      have he : effectOn
          { old with
            category_id := dto.category_id.getD old.category_id
            account_id := resolveAccountField dto.account_id old.account_id
            destination_account_id :=
              resolveAccountField dto.destination_account_id
                old.destination_account_id
            amount := dto.amount.getD old.amount
            transaction_date := dto.transaction_date.getD old.transaction_date
            description := dto.description.or old.description
            transaction_type :=
              (dto.transaction_type.getD old.get_type).as_str } aid =
          balanceEffect (resolveAccountField dto.account_id old.account_id)
            (resolveAccountField dto.destination_account_id
              old.destination_account_id)
            (dto.amount.getD old.amount)
            (dto.transaction_type.getD old.get_type) aid := by
        unfold effectOn
        simp [Transaction.get_type, parse_as_str]
      rw [he]
      simp [opSign]
      ring
    · constructor
      · rw [ids_map_replace s.transactions tid
          (fun t2 =>
            { t2 with
              category_id := dto.category_id.getD old.category_id
              account_id := resolveAccountField dto.account_id old.account_id
              destination_account_id :=
                resolveAccountField dto.destination_account_id
                  old.destination_account_id
              amount := dto.amount.getD old.amount
              transaction_date := dto.transaction_date.getD old.transaction_date
              description := dto.description.or old.description
              transaction_type :=
                (dto.transaction_type.getD old.get_type).as_str })
          (fun t2 => rfl)]
        exact hWF.1
      · intro a ha
        obtain ⟨t2, ht2, rfl⟩ := List.mem_map.mp ha
        dsimp only
        by_cases h2 : (t2.id == tid) = true
        · simp only [h2, if_true]
          exact hWF.2 t2 ht2
        · simp only [h2, if_false]
          exact hWF.2 t2 ht2

/-- A ledger command: one Create, Update or Delete request with its acting
user. -/
inductive Op where
  | createOp (user_id : Nat) (dto : CreateTransactionDto)
  | updateOp (user_id transaction_id : Nat) (dto : UpdateTransactionDto)
  | deleteOp (user_id transaction_id : Nat)

/-- Run one ledger command with commit-or-rollback semantics. -/
def runOp (s : DbState) : Op → DbState
  | .createOp u dto => runCreate s u dto
  | .updateOp u tid dto => runUpdate s u tid dto
  | .deleteOp u tid => runDelete s u tid

/-- Run a sequence of ledger commands. -/
def runOps (s : DbState) : List Op → DbState
  | [] => s
  | op :: ops => runOps (runOp s op) ops

theorem invWF_runOp (s : DbState) (op : Op) (hInv : Inv s) (hWF : WF s) :
    Inv (runOp s op) ∧ WF (runOp s op) := by
  cases op with
  | createOp u dto => exact invWF_runCreate s u dto hInv hWF
  | updateOp u tid dto => exact invWF_runUpdate s u tid dto hInv hWF
  | deleteOp u tid => exact invWF_runDelete s u tid hInv hWF

theorem invWF_runOps (ops : List Op) (s : DbState) (hInv : Inv s)
    (hWF : WF s) : Inv (runOps s ops) ∧ WF (runOps s ops) := by
  induction ops generalizing s with
  | nil => exact ⟨hInv, hWF⟩
  | cons op ops ih =>
    obtain ⟨h1, h2⟩ := invWF_runOp s op hInv hWF
    exact ih (runOp s op) h1 h2

theorem accountOwnedBy_applyDeltaAll (l : List Account) (δ : Nat → Int)
    (cats : List Category) (buds : List Budget) (ts : List Transaction)
    (n aid u : Nat) :
    accountOwnedBy
      { accounts := applyDeltaAll l δ, categories := cats, budgets := buds,
        transactions := ts, next_id := n } aid u =
      accountOwnedBy
        { accounts := l, categories := cats, budgets := buds,
          transactions := ts, next_id := n } aid u := by
  simp only [accountOwnedBy, applyDeltaAll, List.any_map]
  rfl

theorem create_transaction_success (s : DbState) (u : Nat)
    (dto : CreateTransactionDto)
    (hval : dto.validate_transfer = .ok ())
    (hcat : categoryOwnedBy s dto.category_id u = true)
    (hsrc : ∀ id, dto.account_id = some id → accountOwnedBy s id u = true)
    (hdst : ∀ id, dto.destination_account_id = some id →
      accountOwnedBy s id u = true) :
    create_transaction s u dto =
      .ok (mkTx s dto,
        apply_transaction_balance_effects
          { s with
            transactions := mkTx s dto :: s.transactions
            next_id := s.next_id + 1 }
          dto.account_id dto.destination_account_id dto.amount
          dto.transaction_type BalanceOperation.Apply) := by
  have h2 : (match dto.account_id with
      | some a => accountOwnedBy s a u
      | none => true) = true := by
    cases hda : dto.account_id with
    | none => rfl
    | some id => exact hsrc id hda
  have h3 : (match dto.destination_account_id with
      | some a => accountOwnedBy s a u
      | none => true) = true := by
    cases hdd : dto.destination_account_id with
    | none => rfl
    | some id => exact hdst id hdd
  simp [create_transaction, hval, hcat, h2, h3, mkTx]

theorem delete_transaction_success (s : DbState) (u tid : Nat)
    (t : Transaction) (hf : findTx s u tid = some t) :
    delete_transaction s u tid =
      .ok { s with
            accounts := applyDeltaAll s.accounts
              (fun i => opSign BalanceOperation.Reverse * effectOn t i)
            transactions :=
              s.transactions.filter fun t2 => !(t2.id == tid) } := by
  unfold delete_transaction
  rw [hf]
  dsimp only
  rw [apply_transaction_balance_effects_with_existence_check_eq]
  rfl

theorem update_transaction_success (s : DbState) (u tid : Nat)
    (dto : UpdateTransactionDto) (old : Transaction)
    (hf : findTx s u tid = some old)
    (hcat : dto.category_id.isSome = true →
      categoryOwnedBy s (dto.category_id.getD old.category_id) u = true)
    (hsrc : ∀ id, dto.account_id = some (some id) →
      accountOwnedBy s id u = true)
    (hdst : ∀ id, dto.destination_account_id = some (some id) →
      accountOwnedBy s id u = true)
    (hval : dto.validate_transfer (dto.transaction_type.getD old.get_type)
      (resolveAccountField dto.account_id old.account_id)
      (resolveAccountField dto.destination_account_id
        old.destination_account_id) = .ok ()) :
    update_transaction s u tid dto =
      .ok (updatedTx old dto, updateFinalState s old tid dto) := by
  have hcond : (dto.category_id.isSome &&
      !categoryOwnedBy s (dto.category_id.getD old.category_id) u) = false := by
    cases hc1 : dto.category_id.isSome with
    | false => rfl
    | true => simp [hcat hc1]
  rcases hda : dto.account_id with _ | osrc
  · rcases hdd : dto.destination_account_id with _ | odst
    · rw [hda, hdd] at hval
      simp only [resolveAccountField] at hval
      simp [update_transaction, hf, hcond, hda, hdd, hval, updatedTx,
        updateFinalState, resolveAccountField]
    · rcases odst with _ | did
      · rw [hda, hdd] at hval
        simp only [resolveAccountField] at hval
        simp [update_transaction, hf, hcond, hda, hdd, hval, updatedTx,
          updateFinalState, resolveAccountField]
      · rw [hda, hdd] at hval
        simp only [resolveAccountField] at hval
        simp [update_transaction, hf, hcond, hda, hdd, hval, hdst did hdd,
          updatedTx, updateFinalState, resolveAccountField]
  · rcases osrc with _ | sid
    · rcases hdd : dto.destination_account_id with _ | odst
      · rw [hda, hdd] at hval
        simp only [resolveAccountField] at hval
        simp [update_transaction, hf, hcond, hda, hdd, hval, updatedTx,
          updateFinalState, resolveAccountField]
      · rcases odst with _ | did
        · rw [hda, hdd] at hval
          simp only [resolveAccountField] at hval
          simp [update_transaction, hf, hcond, hda, hdd, hval, updatedTx,
            updateFinalState, resolveAccountField]
        · rw [hda, hdd] at hval
          simp only [resolveAccountField] at hval
          simp [update_transaction, hf, hcond, hda, hdd, hval, hdst did hdd,
            updatedTx, updateFinalState, resolveAccountField]
    · rcases hdd : dto.destination_account_id with _ | odst
      · rw [hda, hdd] at hval
        simp only [resolveAccountField] at hval
        simp [update_transaction, hf, hcond, hda, hdd, hval, hsrc sid hda,
          updatedTx, updateFinalState, resolveAccountField]
      · rcases odst with _ | did
        · rw [hda, hdd] at hval
          simp only [resolveAccountField] at hval
          simp [update_transaction, hf, hcond, hda, hdd, hval, hsrc sid hda,
            updatedTx, updateFinalState, resolveAccountField]
        · rw [hda, hdd] at hval
          simp only [resolveAccountField] at hval
          simp [update_transaction, hf, hcond, hda, hdd, hval, hsrc sid hda,
            hdst did hdd, updatedTx, updateFinalState, resolveAccountField]

/-- Balance of account `account_id` stored in `s` (read accessor for the
concrete scenarios; amounts are in hundredths, so 50.00 is 5000). -/
def getBalance (s : DbState) (account_id : Nat) : Option Int :=
  (s.accounts.find? fun a => a.id == account_id).map (fun a => a.balance)

/-- Concrete store for the spec scenarios: user 1 owns budget 30, category 20
(in budget 30) and account 10 with balance 100.00 (10000). -/
def scenarioBase : DbState :=
  { accounts := [{ id := 10, owner_id := 1, balance := 10000 }]
    categories := [{ id := 20, budget_id := 30 }]
    budgets := [{ id := 30, owner_id := 1 }]
    transactions := []
    next_id := 100 }

/-- Scenario A command: Create Expense of 50.00 (5000) on account 10. -/
def scenarioADto : CreateTransactionDto :=
  { category_id := 20, account_id := some 10, destination_account_id := none
    amount := 5000, transaction_date := 1, description := none
    transaction_type := TransactionType.Expense }

/-- Store after Scenario A. -/
def scenarioAState : DbState := runCreate scenarioBase 1 scenarioADto

/-- The ledger row Scenario A persists (id 100). -/
def scenarioATx : Transaction :=
  { id := 100, category_id := 20, account_id := some 10
    destination_account_id := none, amount := 5000, transaction_date := 1
    description := none, transaction_type := "expense" }

/-- A PATCH command that changes only the amount. -/
def amountOnlyDto (amt : Int) : UpdateTransactionDto :=
  { category_id := none, account_id := none, destination_account_id := none
    amount := some amt, transaction_date := none, description := none
    transaction_type := none }

/-- A Create command carrying all fields of the persisted row `t` except the
amount, which is `amt` (the Delete-then-Create comparison input). -/
def recreateDto (t : Transaction) (amt : Int) : CreateTransactionDto :=
  { category_id := t.category_id, account_id := t.account_id
    destination_account_id := t.destination_account_id, amount := amt
    transaction_date := t.transaction_date, description := t.description
    transaction_type := t.get_type }

/-- Store after Scenario C (update the Scenario A transaction's amount to
20.00, i.e. 2000). -/
def scenarioCState : DbState :=
  runUpdate scenarioAState 1 100 (amountOnlyDto 2000)

/-- C1: for every account and every sequence of Create/Update/Delete ledger
operations (each committing on success and rolling back on failure, with no
external balance edits), starting from a well-formed store satisfying the
balance-conservation invariant, every account's stored balance still equals
the sum of the signed effects of all currently-persisted transactions that
reference it.  `WF` is what the relational store guarantees anyway:
transaction primary keys are distinct and below the key sequence. -/
theorem C1_balance_conservation (ops : List Op) (s : DbState)
    (hWF : WF s) (hInv : Inv s) : Inv (runOps s ops) :=
  (invWF_runOps ops s hInv hWF).1

/-- Store with account 10 at balance 0 and no transactions: the conservation
invariant holds trivially. -/
def conservedBase : DbState :=
  { accounts := [{ id := 10, owner_id := 1, balance := 0 }]
    categories := [{ id := 20, budget_id := 30 }]
    budgets := [{ id := 30, owner_id := 1 }]
    transactions := []
    next_id := 100 }

/-- A concrete command sequence: create an expense, change its amount,
delete it. -/
def c1Ops : List Op :=
  [Op.createOp 1 scenarioADto, Op.updateOp 1 100 (amountOnlyDto 2000),
    Op.deleteOp 1 100]

theorem C1_balance_conservation_witness :
    WF conservedBase ∧ Inv conservedBase ∧ Inv (runOps conservedBase c1Ops) :=
  ⟨by decide, by decide,
    C1_balance_conservation c1Ops conservedBase (by decide) (by decide)⟩

/-- C2: applying a transaction's balance effect is exactly: Expense
subtracts the amount from the source account; Income adds it to the source
account; Transfer subtracts it from the source (if present) and adds it to
the destination (if present); an absent account reference on either side
affects nothing and is not an error (the function is total and every
unreferenced account keeps its balance, the added term being 0). -/
theorem C2_balance_effect_calculator (s : DbState) (src dst : Option Nat)
    (amount : Int) (tt : TransactionType) :
    apply_transaction_balance_effects s src dst amount tt
        BalanceOperation.Apply =
      { s with
        accounts := s.accounts.map fun a =>
          { a with
            balance := a.balance +
              match tt with
              | .Expense => if src = some a.id then -amount else 0
              | .Income => if src = some a.id then amount else 0
              | .Transfer =>
                (if src = some a.id then -amount else 0) +
                  (if dst = some a.id then amount else 0) } } := by
  rw [apply_transaction_balance_effects_eq]
  refine state_accounts_congr s ?_
  unfold applyDeltaAll
  apply List.map_congr_left
  intro a _
  cases tt <;> simp [balanceEffect, opSign]

/-- C3: for a persisted transaction (found and owned, its referenced
accounts owned, its field combination valid as the data model requires),
updating only the amount succeeds and yields the same account balances as
deleting it and re-creating it with the new amount and all other fields
equal; moreover the update's balance handling literally reverses all old
effects (with existence checks) and then applies all new effects, not a
delta. -/
theorem C3_update_amount_equiv_delete_create (s : DbState) (u tid : Nat)
    (t : Transaction) (amt : Int)
    (hf : findTx s u tid = some t)
    (hsrc : ∀ id, t.account_id = some id → accountOwnedBy s id u = true)
    (hdst : ∀ id, t.destination_account_id = some id →
      accountOwnedBy s id u = true)
    (hval : (recreateDto t amt).validate_transfer = .ok ()) :
    (∃ t1 s1 s2 t3 s3,
      update_transaction s u tid (amountOnlyDto amt) = .ok (t1, s1) ∧
      delete_transaction s u tid = .ok s2 ∧
      create_transaction s2 u (recreateDto t amt) = .ok (t3, s3) ∧
      s1.accounts = s3.accounts) ∧
    (∀ s0 old na nd namt ntt,
      handle_balance_update_for_modification_with_destination s0 old na nd
          namt ntt =
        apply_transaction_balance_effects
          (apply_transaction_balance_effects_with_existence_check s0
            old.account_id old.destination_account_id old.amount
            old.get_type BalanceOperation.Reverse)
          na nd namt ntt BalanceOperation.Apply) := by
  constructor
  · obtain ⟨hmem, hid, hcat⟩ := findTx_some hf
    have hval2 : (amountOnlyDto amt).validate_transfer
        ((amountOnlyDto amt).transaction_type.getD t.get_type)
        (resolveAccountField (amountOnlyDto amt).account_id t.account_id)
        (resolveAccountField (amountOnlyDto amt).destination_account_id
          t.destination_account_id) = .ok () := hval
    have hupd := update_transaction_success s u tid (amountOnlyDto amt) t hf
      (fun hc => absurd hc (by simp [amountOnlyDto]))
      (fun id h => absurd h (by simp [amountOnlyDto]))
      (fun id h => absurd h (by simp [amountOnlyDto]))
      hval2
    have hdel := delete_transaction_success s u tid t hf
    set s2 : DbState :=
      { s with
        accounts := applyDeltaAll s.accounts
          (fun i => opSign BalanceOperation.Reverse * effectOn t i)
        transactions :=
          s.transactions.filter fun t2 => !(t2.id == tid) } with hs2
    have hcat2 : categoryOwnedBy s2 (recreateDto t amt).category_id u =
        true := hcat
    have hsrc2 : ∀ id, (recreateDto t amt).account_id = some id →
        accountOwnedBy s2 id u = true := by
      intro id h
      rw [hs2, accountOwnedBy_applyDeltaAll]
      exact hsrc id h
    have hdst2 : ∀ id, (recreateDto t amt).destination_account_id =
        some id → accountOwnedBy s2 id u = true := by
      intro id h
      rw [hs2, accountOwnedBy_applyDeltaAll]
      exact hdst id h
    have hcre := create_transaction_success s2 u (recreateDto t amt) hval
      hcat2 hsrc2 hdst2
    refine ⟨_, _, s2, _, _, hupd, hdel, hcre, ?_⟩
    unfold updateFinalState
    rw [handle_balance_eq]
    dsimp only
    rw [apply_transaction_balance_effects_eq]
    dsimp only
    rw [applyDeltaAll_applyDeltaAll]
    rfl
  · intro s0 old na nd namt ntt
    rfl

theorem C3_update_amount_equiv_delete_create_witness :
    findTx scenarioAState 1 100 = some scenarioATx ∧
    (recreateDto scenarioATx 2000).validate_transfer = .ok () ∧
    ((∃ t1 s1 s2 t3 s3,
      update_transaction scenarioAState 1 100 (amountOnlyDto 2000) =
        .ok (t1, s1) ∧
      delete_transaction scenarioAState 1 100 = .ok s2 ∧
      create_transaction s2 1 (recreateDto scenarioATx 2000) = .ok (t3, s3) ∧
      s1.accounts = s3.accounts) ∧
    (∀ s0 old na nd namt ntt,
      handle_balance_update_for_modification_with_destination s0 old na nd
          namt ntt =
        apply_transaction_balance_effects
          (apply_transaction_balance_effects_with_existence_check s0
            old.account_id old.destination_account_id old.amount
            old.get_type BalanceOperation.Reverse)
          na nd namt ntt BalanceOperation.Apply)) :=
  ⟨by decide, by rfl,
    C3_update_amount_equiv_delete_create scenarioAState 1 100 scenarioATx
      2000 (by decide)
      (fun id h => by simp [scenarioATx] at h; subst h; decide)
      (fun id h => by simp [scenarioATx] at h)
      (by rfl)⟩

/-- C4: for every valid Create command (combination valid, category owned,
referenced accounts existing and owned — any kind, any amount), Create
succeeds and a Delete of the created row then succeeds and restores every
account balance to its exact pre-Create value (amounts are unbounded
integers here, matching the exact decimal arithmetic of the store). -/
theorem C4_create_delete_roundtrip (s : DbState) (u : Nat)
    (dto : CreateTransactionDto)
    (hval : dto.validate_transfer = .ok ())
    (hcat : categoryOwnedBy s dto.category_id u = true)
    (hsrc : ∀ id, dto.account_id = some id → accountOwnedBy s id u = true)
    (hdst : ∀ id, dto.destination_account_id = some id →
      accountOwnedBy s id u = true) :
    ∃ t s1 s2, create_transaction s u dto = .ok (t, s1) ∧
      delete_transaction s1 u t.id = .ok s2 ∧ s2.accounts = s.accounts := by
  have hcre := create_transaction_success s u dto hval hcat hsrc hdst
  set s1 : DbState := apply_transaction_balance_effects
    { s with
      transactions := mkTx s dto :: s.transactions
      next_id := s.next_id + 1 }
    dto.account_id dto.destination_account_id dto.amount
    dto.transaction_type BalanceOperation.Apply with hs1
  have hfind : findTx s1 u (mkTx s dto).id = some (mkTx s dto) := by
    rw [hs1, apply_transaction_balance_effects_eq]
    unfold findTx
    dsimp only
    refine List.find?_cons_of_pos _ ?_
    rw [Bool.and_eq_true]
    exact ⟨by simp, hcat⟩
  have hdel := delete_transaction_success s1 u (mkTx s dto).id (mkTx s dto)
    hfind
  refine ⟨mkTx s dto, s1, _, hcre, hdel, ?_⟩
  show applyDeltaAll s1.accounts
    (fun i => opSign BalanceOperation.Reverse * effectOn (mkTx s dto) i) =
    s.accounts
  rw [hs1, apply_transaction_balance_effects_eq]
  dsimp only
  rw [applyDeltaAll_applyDeltaAll]
  apply applyDeltaAll_eq_self
  intro a _
  unfold effectOn
  rw [mkTx_get_type]
  simp only [mkTx, opSign]
  ring

theorem C4_create_delete_roundtrip_witness :
    scenarioADto.validate_transfer = .ok () ∧
    categoryOwnedBy scenarioBase scenarioADto.category_id 1 = true ∧
    (∃ t s1 s2, create_transaction scenarioBase 1 scenarioADto = .ok (t, s1) ∧
      delete_transaction s1 1 t.id = .ok s2 ∧
      s2.accounts = scenarioBase.accounts) :=
  ⟨by rfl, by decide,
    C4_create_delete_roundtrip scenarioBase 1 scenarioADto (by rfl)
      (by decide)
      (fun id h => by simp [scenarioADto] at h; subst h; decide)
      (fun id h => by simp [scenarioADto] at h)⟩

/-- C5 as written is false on the code: after Scenario A (Create Expense
50.00 on account A at 100.00, leaving 50.00), updating the transaction's
amount to 20.00 leaves the balance at 80.00 (reverse +50.00, apply −20.00 —
exactly the spec's own "100.00 − 20.00"), not at 130.00.  Amounts are in
hundredths: 10000 = 100.00. -/
theorem C5_scenario_c_counterexample :
    getBalance scenarioAState 10 = some 5000 ∧
    getBalance scenarioCState 10 = some 8000 ∧
    ¬ getBalance scenarioCState 10 = some 13000 := by decide

/-- C5 (amended): after Scenario A (balance 100.00 → 50.00), updating the
transaction's amount to 20.00 leaves account A's balance at 80.00
(100.00 − 20.00). -/
theorem C5_scenario_c_amended :
    getBalance scenarioBase 10 = some 10000 ∧
    getBalance scenarioAState 10 = some 5000 ∧
    getBalance scenarioCState 10 = some 8000 := by decide

/-- C6: a Create command whose kind/account combination is contradictory —
destination set on a non-Transfer, or a Transfer with both accounts present
and equal — fails with the validation error (`InvalidCombination`), and
nothing is persisted and no balance changes (the committed state is the
input state). -/
theorem C6_create_invalid_combination (s : DbState) (u : Nat)
    (dto : CreateTransactionDto)
    (hbad : (dto.transaction_type ≠ TransactionType.Transfer ∧
        dto.destination_account_id.isSome) ∨
      (dto.transaction_type = TransactionType.Transfer ∧
        dto.account_id.isSome ∧
        dto.account_id = dto.destination_account_id)) :
    (∃ msg, create_transaction s u dto = .error (.ValidationError msg)) ∧
      runCreate s u dto = s := by
  have hv : ∃ msg, dto.validate_transfer = .error msg := by
    unfold CreateTransactionDto.validate_transfer
    rcases hbad with h | h
    · rw [if_pos h]
      exact ⟨_, rfl⟩
    · by_cases h1 : dto.transaction_type ≠ TransactionType.Transfer ∧
        dto.destination_account_id.isSome
      · rw [if_pos h1]
        exact ⟨_, rfl⟩
      · rw [if_neg h1, if_pos h]
        exact ⟨_, rfl⟩
  obtain ⟨msg, hv⟩ := hv
  refine ⟨⟨msg, ?_⟩, ?_⟩
  · simp [create_transaction, hv]
  · simp [runCreate, create_transaction, hv]

/-- Scenario F command: a Transfer from account 10 to account 10. -/
def selfTransferDto : CreateTransactionDto :=
  { category_id := 20, account_id := some 10
    destination_account_id := some 10, amount := 1000
    transaction_date := 1, description := none
    transaction_type := TransactionType.Transfer }

theorem C6_create_invalid_combination_witness :
    ((selfTransferDto.transaction_type ≠ TransactionType.Transfer ∧
        selfTransferDto.destination_account_id.isSome) ∨
      (selfTransferDto.transaction_type = TransactionType.Transfer ∧
        selfTransferDto.account_id.isSome ∧
        selfTransferDto.account_id =
          selfTransferDto.destination_account_id)) ∧
    ((∃ msg, create_transaction scenarioBase 1 selfTransferDto =
        .error (.ValidationError msg)) ∧
      runCreate scenarioBase 1 selfTransferDto = scenarioBase) :=
  ⟨by decide,
    C6_create_invalid_combination scenarioBase 1 selfTransferDto (by decide)⟩

/-- A Create command that is both an invalid combination (Transfer with
source = destination) and names a nonexistent category 99. -/
def badComboBadCategoryDto : CreateTransactionDto :=
  { category_id := 99, account_id := some 10
    destination_account_id := some 10, amount := 1000
    transaction_date := 1, description := none
    transaction_type := TransactionType.Transfer }

/-- C7 as universally stated is false on the code: a Create command whose
category does not exist can still fail with the *validation* error instead
of NotFound, because the kind/account-combination check runs first (before
the atomic unit is even opened).  Concretely: category 99 does not exist
for user 1, yet Create fails with the ValidationError, not NotFound. -/
theorem C7_category_notfound_counterexample :
    categoryOwnedBy scenarioBase badComboBadCategoryDto.category_id 1 =
      false ∧
    create_transaction scenarioBase 1 badComboBadCategoryDto =
      .error (.ValidationError
        "source and destination accounts must be different") := by
  constructor
  · decide
  · rfl

/-- C7 (amended): for every Create command that passes the kind/account
combination validation and whose category does not exist or is owned by
another user, Create fails with NotFound and nothing is persisted and no
balance changes. -/
theorem C7_category_notfound (s : DbState) (u : Nat)
    (dto : CreateTransactionDto)
    (hval : dto.validate_transfer = .ok ())
    (hcat : categoryOwnedBy s dto.category_id u = false) :
    create_transaction s u dto =
        .error (.NotFound "Category not found or access denied") ∧
      runCreate s u dto = s := by
  have h : create_transaction s u dto =
      .error (.NotFound "Category not found or access denied") := by
    simp [create_transaction, hval, hcat]
  exact ⟨h, by simp [runCreate, h]⟩

/-- Scenario E command: Create in a category (99) the user does not own. -/
def foreignCategoryDto : CreateTransactionDto :=
  { category_id := 99, account_id := some 10
    destination_account_id := none, amount := 1000
    transaction_date := 1, description := none
    transaction_type := TransactionType.Expense }

theorem C7_category_notfound_witness :
    foreignCategoryDto.validate_transfer = .ok () ∧
    categoryOwnedBy scenarioBase foreignCategoryDto.category_id 1 = false ∧
    (create_transaction scenarioBase 1 foreignCategoryDto =
        .error (.NotFound "Category not found or access denied") ∧
      runCreate scenarioBase 1 foreignCategoryDto = scenarioBase) :=
  ⟨by rfl, by decide,
    C7_category_notfound scenarioBase 1 foreignCategoryDto (by rfl)
      (by decide)⟩

/-- C8: Delete of a persisted (owned) transaction succeeds in one atomic
unit: every account still present in the store gets the reversed effect of
the record (accounts the record references that were deleted independently
are skipped — they are no longer in the store, and the existence-checked
reversal leaves the remaining accounts exactly as below), and the record is
removed. -/
theorem C8_delete_reverses_and_removes (s : DbState) (u tid : Nat)
    (t : Transaction) (hf : findTx s u tid = some t) :
    delete_transaction s u tid =
      .ok { s with
            accounts := s.accounts.map fun a =>
              { a with balance := a.balance - effectOn t a.id }
            transactions :=
              s.transactions.filter fun t2 => !(t2.id == tid) } := by
  rw [delete_transaction_success s u tid t hf]
  refine congrArg Except.ok ?_
  have h : applyDeltaAll s.accounts
      (fun i => opSign BalanceOperation.Reverse * effectOn t i) =
      s.accounts.map fun a =>
        { a with balance := a.balance - effectOn t a.id } := by
    unfold applyDeltaAll
    apply List.map_congr_left
    intro a _
    have h2 : a.balance +
        opSign BalanceOperation.Reverse * effectOn t a.id =
        a.balance - effectOn t a.id := by
      simp only [opSign]
      ring
    rw [h2]
  rw [h]

theorem C8_delete_reverses_and_removes_witness :
    findTx scenarioAState 1 100 = some scenarioATx ∧
    delete_transaction scenarioAState 1 100 =
      .ok { scenarioAState with
            accounts := scenarioAState.accounts.map fun a =>
              { a with balance := a.balance - effectOn scenarioATx a.id }
            transactions :=
              scenarioAState.transactions.filter fun t2 =>
                !(t2.id == 100) } :=
  ⟨by decide,
    C8_delete_reverses_and_removes scenarioAState 1 100 scenarioATx
      (by decide)⟩

/-- C9: a successful Update resolves every field of the resulting record by
the partial-update rule: a field omitted from the command keeps the current
value (`Option.getD`, and for the kind the stored string is the canonical
form of the kept kind), and the two account fields follow the three-way
rule `resolveAccountField`: omitted keeps the current reference, explicit
null clears it, an explicit id sets it. -/
theorem C9_update_partial_field_semantics (s : DbState) (u tid : Nat)
    (dto : UpdateTransactionDto) (old : Transaction)
    (hf : findTx s u tid = some old)
    (hcat : dto.category_id.isSome = true →
      categoryOwnedBy s (dto.category_id.getD old.category_id) u = true)
    (hsrc : ∀ id, dto.account_id = some (some id) →
      accountOwnedBy s id u = true)
    (hdst : ∀ id, dto.destination_account_id = some (some id) →
      accountOwnedBy s id u = true)
    (hval : dto.validate_transfer (dto.transaction_type.getD old.get_type)
      (resolveAccountField dto.account_id old.account_id)
      (resolveAccountField dto.destination_account_id
        old.destination_account_id) = .ok ()) :
    ∃ s2, update_transaction s u tid dto =
      .ok ({ old with
             category_id := dto.category_id.getD old.category_id
             account_id := resolveAccountField dto.account_id old.account_id
             destination_account_id :=
               resolveAccountField dto.destination_account_id
                 old.destination_account_id
             amount := dto.amount.getD old.amount
             transaction_date :=
               dto.transaction_date.getD old.transaction_date
             description := dto.description.or old.description
             transaction_type :=
               (dto.transaction_type.getD old.get_type).as_str }, s2) :=
  ⟨updateFinalState s old tid dto,
    update_transaction_success s u tid dto old hf hcat hsrc hdst hval⟩

/-- PATCH used by the C9 witness: clear the source account, keep everything
else, set a new description. -/
def clearSourceDto : UpdateTransactionDto :=
  { category_id := none, account_id := some none
    destination_account_id := none, amount := none
    transaction_date := none, description := some "updated"
    transaction_type := none }

theorem C9_update_partial_field_semantics_witness :
    findTx scenarioAState 1 100 = some scenarioATx ∧
    (∃ s2, update_transaction scenarioAState 1 100 clearSourceDto =
      .ok ({ scenarioATx with
             category_id := clearSourceDto.category_id.getD
               scenarioATx.category_id
             account_id := resolveAccountField clearSourceDto.account_id
               scenarioATx.account_id
             destination_account_id :=
               resolveAccountField clearSourceDto.destination_account_id
                 scenarioATx.destination_account_id
             amount := clearSourceDto.amount.getD scenarioATx.amount
             transaction_date :=
               clearSourceDto.transaction_date.getD
                 scenarioATx.transaction_date
             description :=
               clearSourceDto.description.or scenarioATx.description
             transaction_type :=
               (clearSourceDto.transaction_type.getD
                 scenarioATx.get_type).as_str }, s2)) :=
  ⟨by decide,
    C9_update_partial_field_semantics scenarioAState 1 100 clearSourceDto
      scenarioATx (by decide)
      (fun hc => absurd hc (by decide))
      (fun id h => by simp [clearSourceDto] at h)
      (fun id h => by simp [clearSourceDto] at h)
      (by rfl)⟩

/-- C10: a persisted row whose stored kind string is none of "expense",
"income", "transfer" does not parse, so `get_type` falls back to `Expense`
(the `Default`), and the balance effect Update and Delete compute for it is
the Expense effect — minus the amount on the source account — rather than
a failure: the existence-checked reversal Delete runs behaves exactly as
for an Expense. -/
theorem C10_get_type_fallback (t : Transaction)
    (h1 : t.transaction_type ≠ "expense")
    (h2 : t.transaction_type ≠ "income")
    (h3 : t.transaction_type ≠ "transfer") :
    TransactionType.parse t.transaction_type = none ∧
    t.get_type = TransactionType.Expense ∧
    (∀ aid, effectOn t aid =
      if t.account_id = some aid then -t.amount else 0) ∧
    (∀ s op, apply_transaction_balance_effects_with_existence_check s
        t.account_id t.destination_account_id t.amount t.get_type op =
      apply_transaction_balance_effects_with_existence_check s
        t.account_id t.destination_account_id t.amount
        TransactionType.Expense op) := by
  have hp : TransactionType.parse t.transaction_type = none := by
    simp [TransactionType.parse, h1, h2, h3]
  have hg : t.get_type = TransactionType.Expense := by
    simp [Transaction.get_type, hp]
  refine ⟨hp, hg, fun aid => ?_, fun s op => by rw [hg]⟩
  unfold effectOn
  rw [hg]
  rfl

/-- A persisted row with a corrupted kind string. -/
def corruptedTx : Transaction :=
  { id := 7, category_id := 20, account_id := some 10
    destination_account_id := none, amount := 1234, transaction_date := 1
    description := none, transaction_type := "refund" }

theorem C10_get_type_fallback_witness :
    corruptedTx.transaction_type ≠ "expense" ∧
    (TransactionType.parse corruptedTx.transaction_type = none ∧
    corruptedTx.get_type = TransactionType.Expense ∧
    (∀ aid, effectOn corruptedTx aid =
      if corruptedTx.account_id = some aid then -corruptedTx.amount
      else 0) ∧
    (∀ s op, apply_transaction_balance_effects_with_existence_check s
        corruptedTx.account_id corruptedTx.destination_account_id
        corruptedTx.amount corruptedTx.get_type op =
      apply_transaction_balance_effects_with_existence_check s
        corruptedTx.account_id corruptedTx.destination_account_id
        corruptedTx.amount TransactionType.Expense op)) :=
  ⟨by decide,
    C10_get_type_fallback corruptedTx (by decide) (by decide) (by decide)⟩

end NextBudget
